import Mathlib

/-!
Verification of the HX711 load-cell driver (src/HX711.js).

The driver bit-bangs a 24-bit ADC over two GPIO lines.  This file gives a
shallow embedding of the driver functions and proves the specification
claims about them.

Modelling conventions:
* JavaScript numbers used for raw samples, offsets and scales are modelled
  as exact integers (`Int`) and rationals (`ℚ`); the JavaScript division
  `0 / 0`, which yields `NaN`, is modelled as `Option.none` where a claim
  depends on it.
* Hardware interaction is modelled by oracles: streams of data-line levels
  observed by readiness polls, of data bits shifted in, and of measured
  pulse durations (in microseconds).  Driver functions consume these
  streams and produce the trace of pulses and sleeps they emit, so that
  claims about which pulses are issued can be stated.
* The unbounded loops of the source (the resync recursion of
  `__setChannelGain`, the retry loop of `__readRawAverage`, the taring
  loop of `__begin`) are modelled with an explicit fuel argument; `none`
  means the fuel was exhausted, i.e. the source would still be looping.
  The readiness-poll loop of `__readRaw` is bounded in the source itself
  (maxAttempts = 9999) and is modelled exactly.
-/

namespace HX711

/-- Failure modes of a single raw-read attempt.  The source returns the
single value `false` on every failure path; the three constructors label
the three distinct `return false` sites of `__readRaw` named by the spec. -/
inductive Failure where
  | notReady
  | timingViolation
  | invalidData
deriving DecidableEq

/-- The three gain/channel settings (static enum objects of the source). -/
inductive GainChannel where
  | channelAGain128
  | channelAGain64
  | channelBGain32
deriving DecidableEq

/-- Lines 56-64 of `__setChannelGain`: the per-gain configuration pulse
count (`timesToPulse`): 3 for channel A gain 64, 2 for channel B gain 32,
otherwise (channel A gain 128) 1. -/
def timesToPulse (channelGain : GainChannel) : Nat :=
  match channelGain with
  | .channelAGain64 => 3
  | .channelBGain32 => 2
  | .channelAGain128 => 1

/-- Lines 220-230 of `__readRaw`: conversion of the 24-bit pattern
`data_in` from twos complement to a signed integer (`signed_data`): when
the sign bit `0x800000` is set, `-1 * ((data_in ^ 0xffffff) + 1)`,
otherwise `data_in` itself. -/
def decodeTwos (data_in : Nat) : Int :=
  if data_in &&& 0x800000 ≠ 0 then -(((data_in ^^^ 0xffffff) + 1 : Nat) : Int)
  else (data_in : Int)

/-- Lines 213-230 of `__readRaw`: the sentinel check (`0x7fffff` and
`0x800000` mean invalid / out-of-range data) followed by the
twos-complement decode. -/
def decode (data_in : Nat) : Except Failure Int :=
  if data_in = 0x7fffff ∨ data_in = 0x800000 then .error .invalidData
  else .ok (decodeTwos data_in)

/-- Line 104 (`__isReady`): the device is ready when the data line reads 0. -/
def isReady (level : Nat) : Bool := level == 0

/-- Lines 174-180 of `__readRaw`: the bounded readiness-poll loop.
`poll i` is the data-line level observed by the i-th `__isReady` call.
Returns the index of the first poll that saw the device ready; each failed
poll is followed by a 1 ms sleep and, when the attempt counter has reached
`maxAttempts = 9999`, the loop gives up (`none`, the `return false` of
line 178).  The second argument is the remaining attempt budget. -/
def pollReadyAux (poll : Nat → Nat) : Nat → Nat → Option Nat
  | i, 0 => if isReady (poll i) then some i else none
  | i, r + 1 => if isReady (poll i) then some i else pollReadyAux poll (i + 1) r

/-- The poll loop of `__readRaw` started with attempt counter 0 and the
bound `maxAttempts = 9999` of line 165. -/
def pollReady (poll : Nat → Nat) : Option Nat := pollReadyAux poll 0 9999

/-- Lines 186-208 of `__readRaw`: the 24-bit shift loop.  `dur i` is the
measured duration of the i-th clock pulse, `bit i` the data-line level
sampled after it.  Aborts with `none` when a pulse takes 60 µs or more
(the power-down check, `return false` of line 201); otherwise shifts the
bit into the accumulator `data_in` (left shift by one, then OR). -/
def readBits (dur : Nat → Nat) (bit : Nat → Bool) : Nat → Nat → Nat → Option Nat
  | 0, _, data_in => some data_in
  | k + 1, i, data_in =>
    if 60 ≤ dur i then none
    else readBits dur bit k (i + 1) (data_in * 2 + (if bit i then 1 else 0))

/-- One observable effect of `__setChannelGain`: a 1 ms sleep of the
readiness wait (line 74), or one timed clock pulse (lines 79-85). -/
inductive CfgEv where
  | sleepEv
  | pulseEv (dur : Nat)
deriving DecidableEq

/-- Number of clock pulses in a configuration trace. -/
def countCfgPulses (t : List CfgEv) : Nat :=
  t.countP fun e => match e with
    | .pulseEv _ => true
    | .sleepEv => false

/-- Lines 73-75 of `__setChannelGain`: when `isInit` is set, sleep 1 ms
until the device signals ready.  `cready j` is the data-line level of the
j-th readiness check; the fuel bounds the unbounded `while` loop.  Returns
the emitted sleeps and the next readiness-check index. -/
def waitReady (cready : Nat → Nat) : Nat → Nat → Option (List CfgEv × Nat)
  | _, 0 => none
  | rc, f + 1 =>
    if isReady (cready rc) then some ([], rc + 1)
    else (waitReady cready (rc + 1) f).map fun p => (.sleepEv :: p.1, p.2)

/-- Lines 77-94 of `__setChannelGain`: issue up to `k` timed clock pulses
starting at duration index `dc`.  Returns the pulse trace, whether a pulse
reached the 60 µs budget (at which point the loop stops, line 88), and the
next duration index. -/
def runPulses (cdur : Nat → Nat) : Nat → Nat → List CfgEv × Bool × Nat
  | 0, dc => ([], false, dc)
  | k + 1, dc =>
    if 60 ≤ cdur dc then ([.pulseEv (cdur dc)], true, dc + 1)
    else
      let rest := runPulses cdur k (dc + 1)
      (.pulseEv (cdur dc) :: rest.1, rest.2.1, rest.2.2)

/-- The trace of `k` violation-free configuration pulses starting at
duration index `dc` (the shape `runPulses` produces when no pulse reaches
the 60 µs budget). -/
def pulseTrace (cdur : Nat → Nat) : Nat → Nat → List CfgEv
  | 0, _ => []
  | k + 1, dc => .pulseEv (cdur dc) :: pulseTrace cdur k (dc + 1)

/-- Lines 55-96 (`__setChannelGain`): compute `timesToPulse` for the gain,
add 24 pulses when `isInit`, wait for readiness when `isInit`, then pulse;
when a pulse violates the 60 µs budget, recurse with `isInit = true` (the
resync of line 92).  `fuel` bounds the recursion depth, `wfuel` each
readiness wait.  Returns the emitted trace and the next duration and
readiness cursors (the source function itself returns `true`). -/
def setChannelGain (cdur : Nat → Nat) (cready : Nat → Nat) (wfuel : Nat) :
    Nat → GainChannel → Bool → Nat → Nat → Option (List CfgEv × Nat × Nat)
  | 0, _, _, _, _ => none
  | fuel + 1, channelGain, isInit, dc, rc =>
    match (if isInit then waitReady cready rc wfuel else some ([], rc)) with
    | none => none
    | some (wt, rc') =>
      match runPulses cdur (timesToPulse channelGain + if isInit then 24 else 0) dc with
      | (pt, viol, dc') =>
        if viol then
          (setChannelGain cdur cready wfuel fuel channelGain true dc' rc').map
            fun p => (wt ++ pt ++ p.1, p.2.1, p.2.2)
        else some (wt ++ pt, dc', rc')

/-- Lines 164-231 (`__readRaw`): one raw-read attempt.  Polls readiness
(bounded), shifts 24 bits while enforcing the 60 µs pulse budget, appends
the configuration pulses for the current gain with `isInit = false`
(line 209), sleeps 1 ms, checks the invalid-data sentinels and decodes
twos complement.  Returns the outcome together with the trace emitted by
the configuration step (empty when the attempt aborts before reaching it). -/
def readRaw (poll : Nat → Nat) (dur : Nat → Nat) (bit : Nat → Bool)
    (cdur : Nat → Nat) (cready : Nat → Nat) (wfuel cfuel : Nat)
    (channelGain : GainChannel) : Except Failure Int × List CfgEv :=
  match pollReady poll with
  | none => (.error .notReady, [])
  | some _ =>
    match readBits dur bit 24 0 0 with
    | none => (.error .timingViolation, [])
    | some data_in =>
      let ct := match setChannelGain cdur cready wfuel cfuel channelGain false 0 0 with
        | none => []
        | some p => p.1
      (decode data_in, ct)

/-- Lines 147-150 of `__readRawAverage`: the inner `while (result === false)`
retry loop.  `attempt j` is the outcome of the j-th `__readRaw` call in the
run (`none` models `false`).  Scans from index `i` for the next success;
the fuel bounds the unbounded loop. -/
def nextSuccess (attempt : Nat → Option Int) : Nat → Nat → Option (Int × Nat)
  | _, 0 => none
  | i, f + 1 =>
    match attempt i with
    | some v => some (v, i + 1)
    | none => nextSuccess attempt (i + 1) f

/-- Lines 145-152 of `__readRawAverage`: gather `count` successful raw
samples, each obtained by retrying `__readRaw` until success.  Returns the
samples in order together with the next attempt index. -/
def collectSamples (attempt : Nat → Option Int) (fuel : Nat) :
    Nat → Nat → Option (List Int × Nat)
  | 0, i => some ([], i)
  | count + 1, i =>
    match nextSuccess attempt i fuel with
    | none => none
    | some (v, i') =>
      match collectSamples attempt fuel count i' with
      | none => none
      | some (xs, i'') => some (v :: xs, i'')

/-- Line 144: `numberOfTimes = numberOfTimes < 0 ? 1 : numberOfTimes`. -/
def normCount (numberOfTimes : Int) : Int :=
  if numberOfTimes < 0 then 1 else numberOfTimes

/-- Lines 143-154 (`__readRawAverage`): clamp the count (line 144), gather
the samples, return `sum / numberOfTimes` exactly.  With count 0 the
JavaScript division is `0 / 0 = NaN`, modelled as `none`. -/
def readRawAverage (attempt : Nat → Option Int) (fuel : Nat)
    (numberOfTimes : Int) : Option ℚ :=
  match collectSamples attempt fuel (normCount numberOfTimes).toNat 0 with
  | none => none
  | some (xs, _) =>
    if normCount numberOfTimes = 0 then none
    else some ((xs.sum : ℚ) / ((normCount numberOfTimes : Int) : ℚ))

/-- The calibration-layer state of the driver: tare offset, scale factor
and the cached latest reading (lines 20-22). -/
structure DriverState where
  offset : ℚ
  scale : ℚ
  latestReading : ℚ
deriving DecidableEq

/-- Lines 20-22 of the constructor with the default scale 35: offset 0 and
the sentinel latest reading -1337. -/
def mkInitialState : DriverState :=
  { offset := 0, scale := 35, latestReading := -1337 }

/-- In the calibration layer the sampling layer is abstracted by an oracle:
`rawAvg k n` is the value returned by the k-th `__readRawAverage` call of
the run, `n` being the count it was asked for.  Lines 111-114 (`tare`):
`offset := -1 * __readRawAverage(10)`, then `return true`. -/
def tare (rawAvg : Nat → Int → ℚ) (k : Nat) (s : DriverState) :
    Bool × DriverState × Nat :=
  (true, { s with offset := -1 * rawAvg k 10 }, k + 1)

/-- Lines 122-124 (`__applyNormalisation`): `(rawValue + offset) / scale`. -/
def applyNormalisation (s : DriverState) (rawValue : ℚ) : ℚ :=
  (rawValue + s.offset) / s.scale

/-- Lines 126-129 (`calibrateScale`):
`scale := (__readRawAverage(5) + offset) / knownWeight`, returning the new
scale. -/
def calibrateScale (rawAvg : Nat → Int → ℚ) (k : Nat) (s : DriverState)
    (knownWeight : ℚ) : ℚ × DriverState × Nat :=
  let s' := { s with scale := (rawAvg k 5 + s.offset) / knownWeight }
  (s'.scale, s', k + 1)

/-- Lines 131-136 (`readAverage`): normalise `__readRawAverage(n)` and
cache it as the latest reading. -/
def readAverage (rawAvg : Nat → Int → ℚ) (k : Nat) (s : DriverState)
    (numberOfTimes : Int) : ℚ × DriverState × Nat :=
  let v := applyNormalisation s (rawAvg k numberOfTimes)
  (v, { s with latestReading := v }, k + 1)

/-- Lines 156-158 (`read`): `readAverage(1)`. -/
def read (rawAvg : Nat → Int → ℚ) (k : Nat) (s : DriverState) :
    ℚ × DriverState × Nat :=
  readAverage rawAvg k s 1

/-- Observable calls made by the taring loop of `__begin` (lines 49-51). -/
inductive BeginEv where
  | readEv (value : ℚ)
  | tareEv
deriving DecidableEq

/-- Number of `tare()` calls in a taring-loop trace. -/
def countTares (t : List BeginEv) : Nat :=
  t.countP fun e => match e with
    | .tareEv => true
    | .readEv _ => false

/-- Number of `read()` calls in a taring-loop trace. -/
def countReads (t : List BeginEv) : Nat :=
  t.countP fun e => match e with
    | .tareEv => false
    | .readEv _ => true

/-- Lines 49-51 (`__begin`, the Taring state):
`while (Math.abs(this.read()) >= 0.5) { this.tare(); }`.
Each iteration evaluates `read()` (which also updates the cached reading);
when the absolute reading is below 0.5 the loop exits, otherwise `tare()`
runs and the condition is evaluated again.  `fuel` bounds the unbounded
loop; the trace records the calls in order. -/
def beginLoop (rawAvg : Nat → Int → ℚ) :
    Nat → Nat → DriverState → Option (DriverState × Nat × List BeginEv)
  | 0, _, _ => none
  | fuel + 1, k, s =>
    match read rawAvg k s with
    | (v, s', k') =>
      if |v| < 1 / 2 then some (s', k', [.readEv v])
      else
        match tare rawAvg k' s' with
        | (_, s'', k'') =>
          (beginLoop rawAvg fuel k'' s'').map
            fun p => (p.1, p.2.1, .readEv v :: .tareEv :: p.2.2)

/-- A raw-average oracle on which the taring loop never converges: every
reading comes out far from zero however often the driver tares. -/
def rawAvgAlt : Nat → Int → ℚ :=
  fun k _ => if k % 2 = 0 then 1000 else -1000

/-! ## Lemmas and claim theorems -/

lemma bit_xor_bit (a b : Bool) (m n : Nat) :
    (Nat.bit a m) ^^^ (Nat.bit b n) = Nat.bit (a != b) (m ^^^ n) :=
  Nat.bitwise_bit (f := bne) rfl a m b n

lemma xor_allones_add (n : Nat) :
    ∀ p, p < 2 ^ n → p + (p ^^^ (2 ^ n - 1)) = 2 ^ n - 1 := by
  induction n with
  | zero =>
    intro p hp
    interval_cases p
    rfl
  | succ n ih =>
    intro p hp
    obtain ⟨b, q, rfl⟩ : ∃ b q, Nat.bit b q = p := ⟨p.bodd, p.div2, Nat.bit_decomp p⟩
    have h2 : (2 : Nat) ^ (n + 1) = 2 * 2 ^ n := by ring
    have hone : (1 : Nat) ≤ 2 ^ n := Nat.one_le_two_pow
    have hmask : 2 ^ (n + 1) - 1 = Nat.bit true (2 ^ n - 1) := by
      rw [Nat.bit_val]
      simp only [Bool.toNat_true]
      omega
    have hq : q < 2 ^ n := by
      rw [Nat.bit_val] at hp
      cases b <;> simp [Bool.toNat] at hp <;> omega
    have ihq := ih q hq
    rw [hmask, bit_xor_bit, Nat.bit_val, Nat.bit_val, Nat.bit_val]
    cases b <;> simp [Bool.toNat] <;> omega

lemma xor_allones {n p : Nat} (hp : p < 2 ^ n) :
    p ^^^ (2 ^ n - 1) = 2 ^ n - 1 - p := by
  have := xor_allones_add n p hp
  omega

/-- For 24-bit patterns, testing the mask `0x800000` is testing whether the
pattern is at least `2 ^ 23`. -/
lemma and_sign_bit {P : Nat} (hP : P < 2 ^ 24) :
    P &&& 0x800000 ≠ 0 ↔ 2 ^ 23 ≤ P := by
  have hmask : P &&& 0x800000 = (P.testBit 23).toNat * 2 ^ 23 := by
    have h8 : (0x800000 : Nat) = 2 ^ 23 := by norm_num
    rw [h8, Nat.and_two_pow]
  rw [hmask, Nat.testBit_to_div_mod]
  rcases Nat.lt_or_ge P (2 ^ 23) with hlt | hge
  · have h0 : P / 2 ^ 23 = 0 := by omega
    simp only [h0]
    norm_num
    omega
  · have h1 : P / 2 ^ 23 = 1 := by omega
    simp only [h1]
    norm_num
    omega

lemma decodeTwos_neg {P : Nat} (h1 : 2 ^ 23 ≤ P) (h2 : P < 2 ^ 24) :
    decodeTwos P = (P : Int) - 2 ^ 24 := by
  have hbit : P &&& 0x800000 ≠ 0 := (and_sign_bit h2).mpr h1
  have hxor : P ^^^ 0xffffff = 2 ^ 24 - 1 - P := by
    have h24 : (0xffffff : Nat) = 2 ^ 24 - 1 := by norm_num
    rw [h24]
    exact xor_allones h2
  rw [decodeTwos, if_pos hbit, hxor]
  have hle : P ≤ 2 ^ 24 - 1 := by omega
  push_cast [Nat.sub_add_cancel, hle]
  omega

lemma decodeTwos_nonneg {P : Nat} (h1 : P < 2 ^ 23) :
    decodeTwos P = (P : Int) := by
  have h2 : P < 2 ^ 24 := by
    have : (2 : Nat) ^ 23 < 2 ^ 24 := by norm_num
    omega
  have hbit : ¬ P &&& 0x800000 ≠ 0 := by
    rw [and_sign_bit h2]
    omega
  rw [decodeTwos, if_neg hbit]

/-- Claim C1: for every 24-bit pattern `P` shifted in by a raw read, the
sentinels `0x7fffff` and `0x800000` make the decode step fail with
`invalidData`; every other pattern decodes to `P` when bit 23 is clear and
to `-((P XOR 0xffffff) + 1)` (equivalently `P - 2 ^ 24`) when bit 23 is
set, always inside `[-2 ^ 23, 2 ^ 23 - 1]`; and the four sample values of
the spec decode as stated. -/
theorem c1_decode_correct (P : Nat) (hP : P < 2 ^ 24) :
    (P = 0x7fffff ∨ P = 0x800000 → decode P = .error .invalidData) ∧
    (P ≠ 0x7fffff → P ≠ 0x800000 → ∃ v : Int,
      decode P = .ok v ∧
      (P &&& 0x800000 = 0 → v = (P : Int)) ∧
      (P &&& 0x800000 ≠ 0 →
        v = -(((P ^^^ 0xffffff) + 1 : Nat) : Int) ∧ v = (P : Int) - 2 ^ 24) ∧
      -(2 ^ 23) ≤ v ∧ v ≤ 2 ^ 23 - 1) ∧
    decode 0x000000 = .ok 0 ∧ decode 0xfffffe = .ok (-2) ∧
    decode 0x000001 = .ok 1 ∧ decode 0x800001 = .ok (-(2 ^ 23 - 1)) := by
  refine ⟨?_, ?_, by rfl, by rfl, by rfl, by rfl⟩
  · intro h
    rw [decode, if_pos h]
  · intro h1 h2
    refine ⟨decodeTwos P, ?_, ?_, ?_, ?_⟩
    · rw [decode, if_neg (by tauto)]
    · intro hbit
      have hlt : P < 2 ^ 23 := by
        by_contra hge
        exact (and_sign_bit hP).mpr (by omega) hbit
      exact decodeTwos_nonneg hlt
    · intro hbit
      have hge : 2 ^ 23 ≤ P := (and_sign_bit hP).mp hbit
      refine ⟨?_, decodeTwos_neg hge hP⟩
      rw [decodeTwos, if_pos hbit]
    · by_cases hge : 2 ^ 23 ≤ P
      · rw [decodeTwos_neg hge hP]
        omega
      · rw [decodeTwos_nonneg (by omega)]
        omega

/-- Witness for C1 at the concrete pattern `0x800001`. -/
theorem c1_decode_correct_witness :
    (0x800001 : Nat) < 2 ^ 24 ∧
    decode 0x800001 = .ok (-(2 ^ 23 - 1)) :=
  ⟨by norm_num, (c1_decode_correct 0x800001 (by norm_num)).2.2.2.2.2⟩

lemma pollReadyAux_none (poll : Nat → Nat) :
    ∀ r i, (∀ j, i ≤ j → j ≤ i + r → isReady (poll j) = false) →
      pollReadyAux poll i r = none := by
  intro r
  induction r with
  | zero =>
    intro i h
    simp [pollReadyAux, h i le_rfl (by omega)]
  | succ r ih =>
    intro i h
    have h0 : isReady (poll i) = false := h i le_rfl (by omega)
    rw [pollReadyAux, h0]
    simp only [Bool.false_eq_true, if_false]
    exact ih (i + 1) fun j hj1 hj2 => h j (by omega) (by omega)

lemma pollReadyAux_le (poll : Nat → Nat) :
    ∀ r i j, pollReadyAux poll i r = some j → j ≤ i + r := by
  intro r
  induction r with
  | zero =>
    intro i j h
    rw [pollReadyAux] at h
    by_cases hr : isReady (poll i) <;> simp [hr] at h
    omega
  | succ r ih =>
    intro i j h
    rw [pollReadyAux] at h
    by_cases hr : isReady (poll i) <;> simp [hr] at h
    · omega
    · have := ih (i + 1) j h
      omega

lemma readBits_lt (dur : Nat → Nat) (bit : Nat → Bool) :
    ∀ k i acc d, readBits dur bit k i acc = some d → d < (acc + 1) * 2 ^ k := by
  intro k
  induction k with
  | zero =>
    intro i acc d h
    rw [readBits] at h
    simp at h
    omega
  | succ k ih =>
    intro i acc d h
    rw [readBits] at h
    by_cases hd : 60 ≤ dur i
    · simp [hd] at h
    · rw [if_neg hd] at h
      have hrec := ih (i + 1) (acc * 2 + if bit i then 1 else 0) d h
      have hb : (if bit i then 1 else 0) ≤ 1 := by split <;> omega
      calc d < (acc * 2 + (if bit i then 1 else 0) + 1) * 2 ^ k := hrec
        _ ≤ (2 * (acc + 1)) * 2 ^ k := Nat.mul_le_mul_right _ (by omega)
        _ = (acc + 1) * 2 ^ (k + 1) := by ring

/-- Claim C6: a raw-read attempt polls readiness only boundedly often: a
successful poll can only happen at one of the indices 0..9999 (at most
10000 checks of `__isReady`, with a 1 ms sleep after each failed one), and
when the device never reads 0 within that bound the attempt returns the
`notReady` failure instead of blocking forever. -/
theorem c6_poll_bound (poll dur : Nat → Nat) (bit : Nat → Bool)
    (cdur cready : Nat → Nat) (wfuel cfuel : Nat) (channelGain : GainChannel) :
    ((∀ j, j ≤ 9999 → isReady (poll j) = false) →
      readRaw poll dur bit cdur cready wfuel cfuel channelGain =
        (.error .notReady, [])) ∧
    (∀ j, pollReady poll = some j → j ≤ 9999) := by
  constructor
  · intro h
    have hp : pollReady poll = none :=
      pollReadyAux_none poll 9999 0 fun j hj1 hj2 => h j (by omega)
    simp only [readRaw, hp]
  · intro j hj
    have := pollReadyAux_le poll 9999 0 j hj
    omega

/-- Witness for C6: a device whose data line is stuck at level 1. -/
theorem c6_poll_bound_witness :
    readRaw (fun _ => 1) (fun _ => 1) (fun _ => false) (fun _ => 1) (fun _ => 0)
      1 1 .channelAGain128 = (.error .notReady, []) :=
  (c6_poll_bound (fun _ => 1) (fun _ => 1) (fun _ => false) (fun _ => 1)
    (fun _ => 0) 1 1 .channelAGain128).1 (fun j _ => rfl)

/-- Claim C10 (implicit): because the sentinel patterns `0x7fffff` and
`0x800000` are rejected before decoding, every raw sample a successful
read returns lies in `[-(2 ^ 23 - 1), 2 ^ 23 - 2]`, strictly inside the
decode range `[-2 ^ 23, 2 ^ 23 - 1]`. -/
theorem c10_sample_range (poll dur : Nat → Nat) (bit : Nat → Bool)
    (cdur cready : Nat → Nat) (wfuel cfuel : Nat) (channelGain : GainChannel)
    (v : Int) (t : List CfgEv)
    (h : readRaw poll dur bit cdur cready wfuel cfuel channelGain = (.ok v, t)) :
    -(2 ^ 23 - 1) ≤ v ∧ v ≤ 2 ^ 23 - 2 := by
  rw [readRaw] at h
  cases hpoll : pollReady poll with
  | none => rw [hpoll] at h; simp at h
  | some idx =>
    rw [hpoll] at h
    cases hbits : readBits dur bit 24 0 0 with
    | none => rw [hbits] at h; simp at h
    | some data_in =>
      rw [hbits] at h
      have hlt : data_in < 2 ^ 24 := by
        have := readBits_lt dur bit 24 0 0 data_in hbits
        simpa using this
      have hdec : decode data_in = .ok v := by
        have := congrArg Prod.fst h
        simpa using this
      rw [decode] at hdec
      by_cases hs : data_in = 0x7fffff ∨ data_in = 0x800000
      · rw [if_pos hs] at hdec
        simp at hdec
      · rw [if_neg hs] at hdec
        have hv : decodeTwos data_in = v := by
          simpa using hdec
        push_neg at hs
        by_cases hge : 2 ^ 23 ≤ data_in
        · rw [decodeTwos_neg hge hlt] at hv
          have h1 : data_in ≠ 0x800000 := hs.2
          omega
        · rw [decodeTwos_nonneg (by omega)] at hv
          have h1 : data_in ≠ 0x7fffff := hs.1
          omega

/-- Witness for C10: a complete successful read of the all-zero pattern. -/
theorem c10_sample_range_witness :
    readRaw (fun _ => 0) (fun _ => 1) (fun _ => false) (fun _ => 1) (fun _ => 0)
      1 1 .channelAGain128 = (.ok 0, [.pulseEv 1]) ∧
    (-(2 ^ 23 - 1) ≤ (0 : Int) ∧ (0 : Int) ≤ 2 ^ 23 - 2) :=
  ⟨rfl, c10_sample_range (fun _ => 0) (fun _ => 1) (fun _ => false) (fun _ => 1)
    (fun _ => 0) 1 1 .channelAGain128 0 [.pulseEv 1] rfl⟩

lemma runPulses_no_violation (cdur : Nat → Nat) :
    ∀ k dc, (∀ i, dc ≤ i → i < dc + k → cdur i < 60) →
      runPulses cdur k dc = (pulseTrace cdur k dc, false, dc + k) := by
  intro k
  induction k with
  | zero =>
    intro dc h
    simp [runPulses, pulseTrace]
  | succ k ih =>
    intro dc h
    have h0 : ¬ 60 ≤ cdur dc := by
      have := h dc le_rfl (by omega)
      omega
    have hih := ih (dc + 1) fun i h1 h2 => h i (by omega) (by omega)
    rw [runPulses, if_neg h0]
    simp only [hih, pulseTrace, Prod.mk.injEq]
    refine ⟨trivial, trivial, by omega⟩

lemma countCfgPulses_pulseTrace (cdur : Nat → Nat) :
    ∀ k dc, countCfgPulses (pulseTrace cdur k dc) = k := by
  intro k
  induction k with
  | zero => intro dc; rfl
  | succ k ih =>
    intro dc
    rw [pulseTrace, countCfgPulses, List.countP_cons]
    have := ih (dc + 1)
    rw [countCfgPulses] at this
    simp [this]

lemma countCfgPulses_replicate_sleep (j : Nat) :
    countCfgPulses (List.replicate j .sleepEv) = 0 := by
  induction j with
  | zero => rfl
  | succ j ih =>
    rw [List.replicate_succ, countCfgPulses, List.countP_cons]
    rw [countCfgPulses] at ih
    simp [ih]

lemma waitReady_finds (cready : Nat → Nat) :
    ∀ wfuel j rc, j < wfuel →
      (∀ i, i < j → isReady (cready (rc + i)) = false) →
      isReady (cready (rc + j)) = true →
      waitReady cready rc wfuel = some (List.replicate j .sleepEv, rc + j + 1) := by
  intro wfuel
  induction wfuel with
  | zero => intro j rc hj; omega
  | succ f ih =>
    intro j rc hj hnot hyes
    cases j with
    | zero =>
      rw [waitReady]
      simpa using hyes
    | succ j =>
      have h0 : isReady (cready rc) = false := by
        have := hnot 0 (by omega)
        simpa using this
      rw [waitReady, h0]
      simp only [Bool.false_eq_true, if_false]
      have hrec := ih j (rc + 1) (by omega)
        (fun i hi => by
          have := hnot (i + 1) (by omega)
          simpa [Nat.add_assoc, Nat.add_comm 1 i] using this)
        (by
          have : rc + 1 + j = rc + (j + 1) := by omega
          rw [this]
          exact hyes)
      rw [hrec]
      have h3 : rc + 1 + j + 1 = rc + (j + 1) + 1 := by omega
      simp [h3, List.replicate_succ]

/-- The claim of C2 is false as stated: with the device ready and the first
data pulse taking the full 60 µs, the transfer aborts and the attempt
surfaces as a failure, but NOT a single configuration pulse — resync or
otherwise — is issued before that (the configuration trace is empty). -/
theorem c2_counterexample :
    readRaw (fun _ => 0) (fun _ => 60) (fun _ => false) (fun _ => 1) (fun _ => 0)
      1 1 .channelAGain128 = (.error .timingViolation, []) ∧
    countCfgPulses (readRaw (fun _ => 0) (fun _ => 60) (fun _ => false)
      (fun _ => 1) (fun _ => 0) 1 1 .channelAGain128).2 = 0 :=
  ⟨rfl, rfl⟩

/-- Claim C2 amended: when a pulse of the 24-bit data transfer takes 60 µs
or more, `__readRaw` aborts at once and surfaces as a `timingViolation`
failure WITHOUT issuing any configuration or resync pulses; the resync
sequence with the `isInit` flag (the per-gain pulse count plus 24 extra
pulses, preceded by a readiness wait) is issued only when a pulse inside
the configuration procedure `__setChannelGain` itself reaches the 60 µs
budget. -/
theorem c2_amended_resync (poll dur : Nat → Nat) (bit : Nat → Bool)
    (cdur cready : Nat → Nat) (wfuel cfuel : Nat) (channelGain : GainChannel) :
    (∀ idx, pollReady poll = some idx → readBits dur bit 24 0 0 = none →
      readRaw poll dur bit cdur cready wfuel cfuel channelGain =
        (.error .timingViolation, [])) ∧
    (∀ dc rc f, 60 ≤ cdur dc → (∀ i, dc < i → cdur i < 60) →
      isReady (cready rc) = true → 1 ≤ wfuel →
      setChannelGain cdur cready wfuel (f + 2) channelGain false dc rc =
        some (CfgEv.pulseEv (cdur dc) ::
            pulseTrace cdur (timesToPulse channelGain + 24) (dc + 1),
          dc + 1 + (timesToPulse channelGain + 24), rc + 1) ∧
      countCfgPulses (CfgEv.pulseEv (cdur dc) ::
          pulseTrace cdur (timesToPulse channelGain + 24) (dc + 1)) =
        1 + (timesToPulse channelGain + 24)) := by
  constructor
  · intro idx hpoll hbits
    simp only [readRaw, hpoll, hbits]
  · intro dc rc f hviol hok hready hw
    have htp : 1 ≤ timesToPulse channelGain := by
      cases channelGain <;> simp [timesToPulse]
    have hfirst : runPulses cdur (timesToPulse channelGain + 0) dc =
        ([CfgEv.pulseEv (cdur dc)], true, dc + 1) := by
      obtain ⟨m, hm⟩ : ∃ m, timesToPulse channelGain + 0 = m + 1 :=
        ⟨timesToPulse channelGain - 1, by omega⟩
      rw [hm, runPulses, if_pos hviol]
    obtain ⟨w, hwf⟩ : ∃ w, wfuel = w + 1 := ⟨wfuel - 1, by omega⟩
    have hwait : waitReady cready rc wfuel = some ([], rc + 1) := by
      rw [hwf, waitReady]
      simpa using hready
    have hrest : runPulses cdur (timesToPulse channelGain + 24) (dc + 1) =
        (pulseTrace cdur (timesToPulse channelGain + 24) (dc + 1), false,
          dc + 1 + (timesToPulse channelGain + 24)) :=
      runPulses_no_violation cdur _ (dc + 1) fun i h1 h2 => hok i (by omega)
    constructor
    · rw [setChannelGain]
      simp only [Bool.false_eq_true, if_false, hfirst]
      rw [setChannelGain]
      simp only [if_true, hwait, hrest]
      simp
    · rw [countCfgPulses, List.countP_cons]
      have h1 := countCfgPulses_pulseTrace cdur (timesToPulse channelGain + 24) (dc + 1)
      rw [countCfgPulses] at h1
      simp [h1]
      omega

/-- Witness for C2 amended: the first data pulse (respectively the first
configuration pulse) takes exactly 60 µs; all later pulses are fast and
the device is ready at once. -/
theorem c2_amended_resync_witness :
    readRaw (fun _ => 0) (fun _ => 60) (fun _ => false)
      (fun i => if i = 0 then 60 else 1) (fun _ => 0) 1 1 .channelAGain128 =
      (.error .timingViolation, []) ∧
    setChannelGain (fun i => if i = 0 then 60 else 1) (fun _ => 0) 1 2
      .channelAGain128 false 0 0 =
      some (CfgEv.pulseEv ((fun i => if i = 0 then 60 else 1) 0) ::
          pulseTrace (fun i => if i = 0 then 60 else 1)
            (timesToPulse .channelAGain128 + 24) (0 + 1),
        0 + 1 + (timesToPulse .channelAGain128 + 24), 0 + 1) :=
  ⟨(c2_amended_resync (fun _ => 0) (fun _ => 60) (fun _ => false)
      (fun i => if i = 0 then 60 else 1) (fun _ => 0) 1 1 .channelAGain128).1
      0 rfl rfl,
    ((c2_amended_resync (fun _ => 0) (fun _ => 60) (fun _ => false)
      (fun i => if i = 0 then 60 else 1) (fun _ => 0) 1 1 .channelAGain128).2
      0 0 0 (by norm_num)
      (fun i hi => by rw [if_neg (show i ≠ 0 by omega)]; norm_num)
      rfl (by norm_num)).1⟩

/-- Claim C4: absent timing violations, the configuration procedure issues
exactly `timesToPulse` pulses — 1 for channel A gain 128, 3 for channel A
gain 64, 2 for channel B gain 32 — plus 24 extra pulses when invoked for
power-up/resync (`isInit`), and in the resync case it first sleeps 1 ms
per failed readiness check until the device signals ready (data line 0),
only then pulsing. -/
theorem c4_config_pulses (cdur cready : Nat → Nat) (wfuel fuel : Nat)
    (channelGain : GainChannel) (isInit : Bool) (dc rc j : Nat)
    (hfuel : 1 ≤ fuel)
    (hdur : ∀ i, dc ≤ i →
      i < dc + (timesToPulse channelGain + if isInit then 24 else 0) → cdur i < 60)
    (hwj : j < wfuel)
    (hwready : isReady (cready (rc + j)) = true)
    (hwnot : ∀ i, i < j → isReady (cready (rc + i)) = false) :
    setChannelGain cdur cready wfuel fuel channelGain isInit dc rc =
      some ((if isInit then List.replicate j CfgEv.sleepEv else []) ++
          pulseTrace cdur (timesToPulse channelGain + if isInit then 24 else 0) dc,
        dc + (timesToPulse channelGain + if isInit then 24 else 0),
        if isInit then rc + j + 1 else rc) ∧
    countCfgPulses ((if isInit then List.replicate j CfgEv.sleepEv else []) ++
        pulseTrace cdur (timesToPulse channelGain + if isInit then 24 else 0) dc) =
      timesToPulse channelGain + (if isInit then 24 else 0) ∧
    timesToPulse .channelAGain128 = 1 ∧ timesToPulse .channelAGain64 = 3 ∧
    timesToPulse .channelBGain32 = 2 := by
  obtain ⟨f, hf⟩ : ∃ f, fuel = f + 1 := ⟨fuel - 1, by omega⟩
  cases isInit with
  | false =>
    simp only [Bool.false_eq_true, if_false, Nat.add_zero] at hdur ⊢
    have hrun := runPulses_no_violation cdur (timesToPulse channelGain) dc hdur
    refine ⟨?_, ?_, rfl, rfl, rfl⟩
    · rw [hf, setChannelGain]
      simp [hrun]
    · simpa using countCfgPulses_pulseTrace cdur (timesToPulse channelGain) dc
  | true =>
    simp only [if_true] at hdur ⊢
    have hrun := runPulses_no_violation cdur (timesToPulse channelGain + 24) dc hdur
    refine ⟨?_, ?_, rfl, rfl, rfl⟩
    · rw [hf, setChannelGain]
      rw [waitReady_finds cready wfuel j rc hwj hwnot hwready]
      simp [hrun]
    · rw [countCfgPulses, List.countP_append]
      have h1 := countCfgPulses_pulseTrace cdur (timesToPulse channelGain + 24) dc
      have h2 := countCfgPulses_replicate_sleep j
      rw [countCfgPulses] at h1 h2
      omega

/-- Witness for C4: resync call for channel A gain 64, device ready at the
third readiness check, all pulses fast. -/
theorem c4_config_pulses_witness :
    setChannelGain (fun _ => 5) (fun i => if i < 2 then 1 else 0) 3 1
      .channelAGain64 true 0 0 =
      some ((if true then List.replicate 2 CfgEv.sleepEv else []) ++
          pulseTrace (fun _ => 5) (timesToPulse .channelAGain64 + if true then 24 else 0) 0,
        0 + (timesToPulse .channelAGain64 + if true then 24 else 0),
        if true then 0 + 2 + 1 else 0) ∧
    countCfgPulses ((if true then List.replicate 2 CfgEv.sleepEv else []) ++
        pulseTrace (fun _ => 5) (timesToPulse .channelAGain64 + if true then 24 else 0) 0) =
      timesToPulse .channelAGain64 + (if true then 24 else 0) ∧
    timesToPulse .channelAGain128 = 1 ∧ timesToPulse .channelAGain64 = 3 ∧
    timesToPulse .channelBGain32 = 2 :=
  c4_config_pulses (fun _ => 5) (fun i => if i < 2 then 1 else 0) 3 1
    .channelAGain64 true 0 0 2 (by norm_num) (fun i h1 h2 => by norm_num)
    (by norm_num) rfl (fun i hi => by interval_cases i <;> rfl)

lemma collectSamples_length (attempt : Nat → Option Int) (fuel : Nat) :
    ∀ count i xs i', collectSamples attempt fuel count i = some (xs, i') →
      xs.length = count := by
  intro count
  induction count with
  | zero =>
    intro i xs i' h
    rw [collectSamples] at h
    simp at h
    simp [← h.1]
  | succ count ih =>
    intro i xs i' h
    rw [collectSamples] at h
    cases hn : nextSuccess attempt i fuel with
    | none => rw [hn] at h; simp at h
    | some p =>
      obtain ⟨v, i1⟩ := p
      simp only [hn] at h
      cases hc : collectSamples attempt fuel count i1 with
      | none => simp [hc] at h
      | some q =>
        obtain ⟨ys, i2⟩ := q
        simp only [hc, Option.some.injEq, Prod.mk.injEq] at h
        obtain ⟨h1, h2⟩ := h
        subst h1
        simp [ih i1 ys i2 hc]

/-- The claim of C3 is false at count 0: line 144 clamps only NEGATIVE
counts (`numberOfTimes < 0`, not `< 1`), so a call with count 0 gathers no
sample and computes `0 / 0` (NaN, modelled `none`) instead of behaving
like count 1, which would return the sample value itself. -/
theorem c3_counterexample :
    normCount 0 = 0 ∧
    readRawAverage (fun _ => some 7) 1 0 = none ∧
    readRawAverage (fun _ => some 7) 1 1 = some 7 := by
  refine ⟨rfl, rfl, ?_⟩
  simp [readRawAverage, collectSamples, nextSuccess, normCount]

/-- Claim C3 amended: `__readRawAverage` treats a NEGATIVE count as 1;
count 0 is not clamped — its loop body never runs and the division is
`0 / 0`, i.e. NaN.  For every count ≥ 1 it accumulates exactly `count`
successful samples, retrying past each failed raw-read attempt, and
returns their exact arithmetic mean without truncation. -/
theorem c3_amended_average (attempt : Nat → Option Int) (fuel : Nat)
    (numberOfTimes : Int) (xs : List Int) (i : Nat)
    (h : collectSamples attempt fuel (normCount numberOfTimes).toNat 0 =
      some (xs, i)) :
    (numberOfTimes < 0 → normCount numberOfTimes = 1) ∧
    (0 ≤ numberOfTimes → normCount numberOfTimes = numberOfTimes) ∧
    (1 ≤ normCount numberOfTimes →
      readRawAverage attempt fuel numberOfTimes =
        some ((xs.sum : ℚ) / ((normCount numberOfTimes : Int) : ℚ)) ∧
      xs.length = (normCount numberOfTimes).toNat) ∧
    (numberOfTimes = 0 → readRawAverage attempt fuel numberOfTimes = none) := by
  refine ⟨fun hn => by simp [normCount, hn], fun hn => by simp [normCount]; omega,
    fun hn => ⟨?_, collectSamples_length attempt fuel _ 0 xs i h⟩, fun hn => ?_⟩
  · simp only [readRawAverage, h]
    rw [if_neg (show ¬ normCount numberOfTimes = 0 by omega)]
  · simp only [readRawAverage, h]
    rw [if_pos (show normCount numberOfTimes = 0 by subst hn; rfl)]

/-- Witness for C3 amended: count 2 with one failed attempt in the stream. -/
theorem c3_amended_average_witness :
    readRawAverage (fun j => if j = 0 then none else some 3) 2 2 =
      some ((([3, 3] : List Int).sum : ℚ) / ((normCount 2 : Int) : ℚ)) ∧
    ([3, 3] : List Int).length = (normCount 2).toNat :=
  (c3_amended_average (fun j => if j = 0 then none else some 3) 2 2 [3, 3] 3
    rfl).2.2.1 (by decide)

lemma beginLoop_trace (rawAvg : Nat → Int → ℚ) :
    ∀ fuel k s s' k' t, beginLoop rawAvg fuel k s = some (s', k', t) →
      (∃ v rest, t = BeginEv.readEv v :: rest) ∧
      countTares t + 1 = countReads t ∧
      ∃ w, t.getLast? = some (BeginEv.readEv w) ∧ |w| < 1 / 2 := by
  intro fuel
  induction fuel with
  | zero =>
    intro k s s' k' t h
    exact absurd h (by simp [beginLoop])
  | succ fuel ih =>
    intro k s s' k' t h
    rw [beginLoop] at h
    rcases hr : read rawAvg k s with ⟨v, s1, k1⟩
    simp only [hr] at h
    by_cases hv : |v| < 1 / 2
    · rw [if_pos hv] at h
      simp only [Option.some.injEq, Prod.mk.injEq] at h
      obtain ⟨-, -, h3⟩ := h
      subst h3
      refine ⟨⟨v, [], rfl⟩, by simp [countTares, countReads], v, rfl, hv⟩
    · rw [if_neg hv] at h
      rcases ht : tare rawAvg k1 s1 with ⟨b, s2, k2⟩
      simp only [ht] at h
      cases hb : beginLoop rawAvg fuel k2 s2 with
      | none => simp [hb] at h
      | some q =>
        obtain ⟨s3, k3, t0⟩ := q
        rw [hb] at h
        simp only [Option.map_some', Option.some.injEq, Prod.mk.injEq] at h
        obtain ⟨-, -, h3⟩ := h
        subst h3
        obtain ⟨⟨w0, rest0, ht0⟩, hcount, w, hlast, hw⟩ := ih k2 s2 s3 k3 t0 hb
        refine ⟨⟨v, _, rfl⟩, ?_, w, ?_, hw⟩
        · simp only [countTares, countReads, List.countP_cons] at hcount ⊢
          omega
        · rw [List.getLast?_cons_cons]
          rw [ht0] at hlast ⊢
          rw [List.getLast?_cons_cons]
          exact hlast

lemma beginLoop_succ_lt (rawAvg : Nat → Int → ℚ) (fuel k : Nat) (s : DriverState)
    (h : |(read rawAvg k s).1| < 1 / 2) :
    beginLoop rawAvg (fuel + 1) k s =
      some ((read rawAvg k s).2.1, (read rawAvg k s).2.2,
        [.readEv (read rawAvg k s).1]) := by
  rw [beginLoop]
  rcases hr : read rawAvg k s with ⟨v, s1, k1⟩
  rw [hr] at h
  simp only [hr]
  rw [if_pos h]

lemma beginLoop_succ_ge (rawAvg : Nat → Int → ℚ) (fuel k : Nat) (s : DriverState)
    (h : ¬ |(read rawAvg k s).1| < 1 / 2) :
    beginLoop rawAvg (fuel + 1) k s =
      (beginLoop rawAvg fuel
          (tare rawAvg (read rawAvg k s).2.2 (read rawAvg k s).2.1).2.2
          (tare rawAvg (read rawAvg k s).2.2 (read rawAvg k s).2.1).2.1).map
        (fun p => (p.1, p.2.1, .readEv (read rawAvg k s).1 :: .tareEv :: p.2.2)) := by
  rw [beginLoop]
  rcases hr : read rawAvg k s with ⟨v, s1, k1⟩
  rw [hr] at h
  simp only [hr]
  rw [if_neg h]

lemma beginLoop_alt_none : ∀ f k s, k % 2 = 0 → s.scale = 35 →
    (s.offset = 1000 ∨ s.offset = 0) → beginLoop rawAvgAlt f k s = none := by
  intro f
  induction f with
  | zero => intro k s _ _ _; rfl
  | succ f ih =>
    intro k s hk hs ho
    have hread1 : (read rawAvgAlt k s).1 = (1000 + s.offset) / 35 := by
      simp [read, readAverage, applyNormalisation, rawAvgAlt, hk, hs]
    have hcond : ¬ |(read rawAvgAlt k s).1| < 1 / 2 := by
      rw [hread1]
      rcases ho with h | h <;> rw [h] <;>
        rw [abs_of_nonneg (by norm_num)] <;> norm_num
    rw [beginLoop_succ_ge rawAvgAlt f k s hcond]
    have hk2 : (tare rawAvgAlt (read rawAvgAlt k s).2.2
        (read rawAvgAlt k s).2.1).2.2 = k + 2 := by
      simp [tare, read, readAverage]
    have hsc : (tare rawAvgAlt (read rawAvgAlt k s).2.2
        (read rawAvgAlt k s).2.1).2.1.scale = 35 := by
      simp [tare, read, readAverage, hs]
    have hoff : (tare rawAvgAlt (read rawAvgAlt k s).2.2
        (read rawAvgAlt k s).2.1).2.1.offset = 1000 := by
      have h1 : (k + 1) % 2 = 1 := by omega
      simp [tare, read, readAverage, rawAvgAlt, h1]
    rw [hk2, ih (k + 2)
      ((tare rawAvgAlt (read rawAvgAlt k s).2.2 (read rawAvgAlt k s).2.1).2.1)
      (by omega) hsc (Or.inl hoff)]
    rfl

/-- The claim of C5 is false as stated: the source evaluates `read()`
BEFORE any `tare()` (the loop is `while (|read()| >= 0.5) tare()`), so
when the very first reading is already below 0.5 the Taring state
terminates without ever calling `tare()`. -/
theorem c5_counterexample :
    beginLoop (fun _ _ => 0) 1 0 mkInitialState =
      some ({ offset := 0, scale := 35, latestReading := 0 }, 1,
        [BeginEv.readEv 0]) ∧
    countTares [BeginEv.readEv 0] = 0 := by
  constructor
  · have h0 : (read (fun _ _ => 0) 0 mkInitialState).1 = 0 := by
      simp [read, readAverage, applyNormalisation, mkInitialState]
    rw [beginLoop_succ_lt (fun _ _ => 0) 0 0 mkInitialState (by rw [h0]; norm_num)]
    simp [read, readAverage, applyNormalisation, mkInitialState]
  · rfl

/-- Claim C5 amended: the Taring state evaluates `read()` FIRST and, while
the absolute calibrated reading is at least 0.5, calls `tare()` and then
evaluates `read()` again, with no bound on the number of iterations;
`tare()` is never called when the first reading is already below 0.5.
Every terminating run alternates reads and tares starting and ending with
a read (one more read than tares), the final reading is below 0.5 in
absolute value, and there are oracles on which the loop runs forever. -/
theorem c5_amended_taring (rawAvg : Nat → Int → ℚ) (fuel k : Nat)
    (s s' : DriverState) (k' : Nat) (t : List BeginEv)
    (h : beginLoop rawAvg fuel k s = some (s', k', t)) :
    (∃ v rest, t = BeginEv.readEv v :: rest) ∧
    countTares t + 1 = countReads t ∧
    (∃ w, t.getLast? = some (BeginEv.readEv w) ∧ |w| < 1 / 2) ∧
    (∀ f, beginLoop rawAvgAlt f 0 mkInitialState = none) := by
  obtain ⟨h1, h2, h3⟩ := beginLoop_trace rawAvg fuel k s s' k' t h
  exact ⟨h1, h2, h3,
    fun f => beginLoop_alt_none f 0 mkInitialState rfl rfl (Or.inr rfl)⟩

/-- Witness for C5 amended: an oracle whose first reading is zero. -/
theorem c5_amended_taring_witness :
    (∃ v rest, [BeginEv.readEv 0] = BeginEv.readEv v :: rest) ∧
    countTares [BeginEv.readEv 0] + 1 = countReads [BeginEv.readEv 0] ∧
    (∃ w, [BeginEv.readEv 0].getLast? = some (BeginEv.readEv w) ∧ |w| < 1 / 2) ∧
    (∀ f, beginLoop rawAvgAlt f 0 mkInitialState = none) :=
  c5_amended_taring (fun _ _ => 0) 1 0 mkInitialState
    { offset := 0, scale := 35, latestReading := 0 } 1 [BeginEv.readEv 0]
    (by
      have h0 : (read (fun _ _ => 0) 0 mkInitialState).1 = 0 := by
        simp [read, readAverage, applyNormalisation, mkInitialState]
      rw [beginLoop_succ_lt (fun _ _ => 0) 0 0 mkInitialState (by rw [h0]; norm_num)]
      simp [read, readAverage, applyNormalisation, mkInitialState])

/-- The claim of C7 is false without a side condition: when the raw
average seen by the calibration cancels the current offset (here both are
0, with known weight W = 1 > 0), the new scale is 0 and the subsequent
read does NOT return the known weight.  (In JavaScript that read divides
by zero, yielding NaN; in the rational model the division is 0; either way
the result differs from W = 1.) -/
theorem c7_counterexample :
    (calibrateScale (fun _ _ => 0) 0 mkInitialState 1).1 = 0 ∧
    (read (fun _ _ => 0) 1
      (calibrateScale (fun _ _ => 0) 0 mkInitialState 1).2.1).1 ≠ 1 := by
  constructor
  · simp [calibrateScale, mkInitialState]
  · simp [read, readAverage, applyNormalisation, calibrateScale, mkInitialState]

/-- Claim C7 amended: for every known weight W > 0, `calibrateScale W`
sets Scale to `(readRawAverage(5) + Offset) / W` and returns that new
Scale; and PROVIDED the observed raw average does not cancel the offset
(`readRawAverage(5) + Offset ≠ 0`), a subsequent read that observes the
same raw average returns exactly W. -/
theorem c7_calibrate_roundtrip (rawAvg : Nat → Int → ℚ) (k k' : Nat)
    (s : DriverState) (W : ℚ) (hW : 0 < W)
    (hR : rawAvg k 5 + s.offset ≠ 0) (hsame : rawAvg k' 1 = rawAvg k 5) :
    (calibrateScale rawAvg k s W).1 = (rawAvg k 5 + s.offset) / W ∧
    ((calibrateScale rawAvg k s W).2.1).scale = (rawAvg k 5 + s.offset) / W ∧
    (read rawAvg k' (calibrateScale rawAvg k s W).2.1).1 = W := by
  refine ⟨rfl, rfl, ?_⟩
  show applyNormalisation (calibrateScale rawAvg k s W).2.1 (rawAvg k' 1) = W
  rw [applyNormalisation]
  show (rawAvg k' 1 + s.offset) / ((rawAvg k 5 + s.offset) / W) = W
  rw [hsame, div_div_eq_mul_div, mul_comm, mul_div_assoc, div_self hR, mul_one]

/-- Witness for C7 amended: raw average 5, fresh driver state, W = 1. -/
theorem c7_calibrate_roundtrip_witness :
    (calibrateScale (fun _ _ => 5) 0 mkInitialState 1).1 =
      ((fun (_ : Nat) (_ : Int) => (5 : ℚ)) 0 5 + mkInitialState.offset) / 1 ∧
    ((calibrateScale (fun _ _ => 5) 0 mkInitialState 1).2.1).scale =
      ((fun (_ : Nat) (_ : Int) => (5 : ℚ)) 0 5 + mkInitialState.offset) / 1 ∧
    (read (fun _ _ => 5) 1 (calibrateScale (fun _ _ => 5) 0 mkInitialState 1).2.1).1 = 1 :=
  c7_calibrate_roundtrip (fun _ _ => 5) 0 1 mkInitialState 1 (by norm_num)
    (by show (5 : ℚ) + 0 ≠ 0; norm_num) rfl

/-- Claim C8: `tare` sets Offset to the negation of `readRawAverage(10)`,
returns the confirmation `true`, and immediately afterwards normalising
that same raw average yields exactly 0 (the Scale being nonzero, as the
spec requires of every Scale). -/
theorem c8_tare_offset (rawAvg : Nat → Int → ℚ) (k : Nat) (s : DriverState)
    (hs : s.scale ≠ 0) :
    (tare rawAvg k s).1 = true ∧
    ((tare rawAvg k s).2.1).offset = -(rawAvg k 10) ∧
    applyNormalisation ((tare rawAvg k s).2.1) (rawAvg k 10) = 0 := by
  refine ⟨rfl, by simp [tare], ?_⟩
  simp [applyNormalisation, tare]

/-- Witness for C8: raw average 42 on a fresh driver state. -/
theorem c8_tare_offset_witness :
    (tare (fun _ _ => 42) 0 mkInitialState).1 = true ∧
    ((tare (fun _ _ => 42) 0 mkInitialState).2.1).offset =
      -((fun (_ : Nat) (_ : Int) => (42 : ℚ)) 0 10) ∧
    applyNormalisation ((tare (fun _ _ => 42) 0 mkInitialState).2.1)
      ((fun (_ : Nat) (_ : Int) => (42 : ℚ)) 0 10) = 0 :=
  c8_tare_offset (fun _ _ => 42) 0 mkInitialState
    (by show (35 : ℚ) ≠ 0; norm_num)

/-- Claim C9 (frame): Offset is mutated only by `tare` and Scale only by
`calibrateScale`: `readAverage` (and hence `read`) changes nothing but the
cached latest reading, `tare` preserves Scale and the cached reading, and
`calibrateScale` preserves Offset and the cached reading.  (The sampling
layer `readRawAverage` is, by its very type in this embedding — mirroring
lines 143-154, which never touch `this.__offset` or `this.__scale` — a
function of the attempt stream alone and cannot modify the driver state.) -/
theorem c9_frame (rawAvg : Nat → Int → ℚ) (k : Nat) (s : DriverState)
    (numberOfTimes : Int) (W : ℚ) :
    ((readAverage rawAvg k s numberOfTimes).2.1).offset = s.offset ∧
    ((readAverage rawAvg k s numberOfTimes).2.1).scale = s.scale ∧
    (readAverage rawAvg k s numberOfTimes).2.1 =
      { s with latestReading := (readAverage rawAvg k s numberOfTimes).1 } ∧
    ((read rawAvg k s).2.1).offset = s.offset ∧
    ((read rawAvg k s).2.1).scale = s.scale ∧
    ((tare rawAvg k s).2.1).scale = s.scale ∧
    ((tare rawAvg k s).2.1).latestReading = s.latestReading ∧
    ((calibrateScale rawAvg k s W).2.1).offset = s.offset ∧
    ((calibrateScale rawAvg k s W).2.1).latestReading = s.latestReading :=
  ⟨rfl, rfl, rfl, rfl, rfl, rfl, rfl, rfl, rfl⟩

end HX711
